import Mathlib

/-!
Verification development for the Cobalt syscall dispatch and domain-migration
engine (kernel/cobalt/posix/syscall.c).  The two dispatchers
(`handle_head_syscall`, `handle_root_syscall`) and the shared post-call
interposer (`prepare_for_signal`) are embedded shallowly: the execution-mode
bitmask becomes a record of booleans (one per `__xn_exec_*` bit), the calling
thread's control block becomes a record of the fields the dispatchers read and
write, and the ambient machine state (current domain, call-frame status slot,
migration trace, handler-invocation trace) is threaded explicitly.  The
`goto restart` loop of the C code is embedded as fuel-bounded recursion; fuel 2
is proved sufficient because a restart XORs the adaptive bit off.
-/

namespace Cobalt

/-- Error numbers used by the dispatcher (numeric values from the Linux
uapi headers; the code returns their negations). -/
def EPERM : Int := 1

/-- ENOSYS errno value; `-ENOSYS` doubles as the NotSupported indicator that
drives the adaptive restart. -/
def ENOSYS : Int := 38

/-- EINTR errno value (interrupted, do not restart). -/
def EINTR : Int := 4

/-- ERESTARTSYS errno value (interrupted, transparently restart). -/
def ERESTARTSYS : Int := 512

/-- The two execution domains: `control` is the Xenomai (head, primary)
domain, `relaxed` is the Linux (root, secondary) domain. -/
inductive Domain where
  | control
  | relaxed
deriving DecidableEq, Repr

/-- The opposite domain. -/
def Domain.other : Domain → Domain
  | .control => .relaxed
  | .relaxed => .control

/-- Causes reported to `xnthread_relax`; `null` models the literal 0 passed
by the switch-back calls, the others model `SIGDEBUG_MIGRATE_SYSCALL` and
`SIGDEBUG_MIGRATE_SIGNAL`. -/
inductive RelaxCause where
  | null
  | migrateSyscall
  | migrateSignal
deriving DecidableEq, Repr

/-- Trace of calls into the domain-migration collaborators. -/
inductive MigEvent where
  | relax (notify : Bool) (cause : RelaxCause)
  | harden (ok : Bool)
deriving DecidableEq, Repr

/-- The `__xn_exec_*` execution-mode bitmask, one boolean per bit:
`lostage` = run in Linux domain, `histage` = run in Xenomai domain,
`shadow` = caller must be mapped, `switchback` = return to original mode,
`curdom` = exec in current domain (`__xn_exec_current`), `conforming`,
`adaptive`, `norestart`. -/
structure SysFlags where
  lostage : Bool := false
  histage : Bool := false
  shadow : Bool := false
  switchback : Bool := false
  curdom : Bool := false
  conforming : Bool := false
  adaptive : Bool := false
  norestart : Bool := false
deriving DecidableEq, Repr

/-- Mode shorthand `__xn_exec_init` (= `__xn_exec_lostage`). -/
def xnExecInit : SysFlags := { lostage := true }

/-- Mode shorthand `__xn_exec_primary` (= shadow with histage). -/
def xnExecPrimary : SysFlags := { shadow := true, histage := true }

/-- Mode shorthand `__xn_exec_secondary` (= shadow with lostage). -/
def xnExecSecondary : SysFlags := { shadow := true, lostage := true }

/-- Mode shorthand `__xn_exec_downup` (= lostage with switchback). -/
def xnExecDownup : SysFlags := { lostage := true, switchback := true }

/-- Mode shorthand `__xn_exec_nonrestartable` (= primary with norestart). -/
def xnExecNonrestartable : SysFlags :=
  { shadow := true, histage := true, norestart := true }

/-- Mode shorthand `__xn_exec_probing` (= conforming with adaptive). -/
def xnExecProbing : SysFlags := { conforming := true, adaptive := true }

/-- Mode shorthand `__xn_exec_oneway` (= `__xn_exec_norestart`). -/
def xnExecOneway : SysFlags := { norestart := true }

/-- Bare `__xn_exec_lostage` mode, used e.g. by the `bind` syscall. -/
def xnExecLostage : SysFlags := { lostage := true }

/-- Bare `__xn_exec_current` mode. -/
def xnExecCurrent : SysFlags := { curdom := true }

/-- The fields of the real-time thread control block (`struct xnthread`)
that the dispatch engine reads or writes: the `XNKICKED` and `XNBREAK` info
bits, the `XNDEBUG` and `XNWEAK` state bits, the pending-cancellation flag
observed by `xnthread_test_cancel`, and the resource-nesting counter. -/
structure Thread where
  kicked : Bool := false
  breakbit : Bool := false
  debug : Bool := false
  weak : Bool := false
  cancelled : Bool := false
  res_count : Nat := 0
deriving DecidableEq, Repr

/-- The machine state threaded through a dispatch: the calling thread's
current domain, its optional control block (`xnthread_current()`), the call
frame's status slot (`none` until a status is written), and traces of the
migration-primitive calls and of the handler invocations (recording the
domain the thread was in at each invocation). -/
structure SysState where
  dom : Domain
  thread : Option Thread
  status : Option Int := none
  events : List MigEvent := []
  calls : List Domain := []
deriving DecidableEq, Repr

/-- The environment a single dispatch runs against: whether the frame is a
recognized Cobalt call (`__xn_syscall_p`), whether a host signal is pending,
whether the caller holds `CAP_SYS_NICE`, whether a process binding exists,
the result every `xnthread_harden` attempt yields during this call (0 on
success), the handler's result for its k-th invocation, the table size
`__NR_COBALT_SYSCALLS`, the index of `sc_cobalt_bind`, and the
`cobalt_sysmodes` table. -/
structure Env where
  cobaltCall : Bool
  signalPending : Bool
  cap_sys_nice : Bool
  processBound : Bool
  hardenRet : Int
  handler : Nat → Int
  numSyscalls : Nat
  bindNr : Nat
  sysmodes : Nat → SysFlags

/-- `xnthread_relax(notify, cause)`: always succeeds, moves the thread to
the relaxed domain and records the notification request and cause. -/
def xnthread_relax (notify : Bool) (cause : RelaxCause) (s : SysState) : SysState :=
  { s with dom := .relaxed, events := s.events ++ [.relax notify cause] }

/-- `xnthread_harden()`: attempts to enter the control domain; may fail, in
which case the domain is unchanged and the error is returned. -/
def xnthread_harden (env : Env) (s : SysState) : Int × SysState :=
  if env.hardenRet = 0 then
    (0, { s with dom := .control, events := s.events ++ [.harden true] })
  else
    (env.hardenRet, { s with events := s.events ++ [.harden false] })

/-- One handler invocation: returns the k-th handler result and records the
domain the thread executed it in.  Handlers are black boxes per the spec, so
they do not mutate the engine-visible state. -/
def invoke (env : Env) (k : Nat) (s : SysState) : Int × SysState :=
  (env.handler k, { s with calls := s.calls ++ [s.dom] })

/-- `xnthread_test_cancel()` fires iff there is a current shadow thread with
a cancellation pending. -/
def xnthread_test_cancel (s : SysState) : Bool :=
  match s.thread with
  | some t => t.cancelled
  | none => false

/-- Conforming-mode resolution (both dispatchers):
`sysflags |= (thread ? __xn_exec_histage : __xn_exec_lostage)` when the
conforming bit is set.  Note the conforming bit itself is left in place,
exactly as in the source. -/
def resolveConforming (f : SysFlags) (th : Option Thread) : SysFlags :=
  if f.conforming then
    match th with
    | some _ => { f with histage := true }
    | none => { f with lostage := true }
  else f

/-- The adaptive-restart flip:
`sysflags ^= (__xn_exec_lostage | __xn_exec_histage | __xn_exec_adaptive)`. -/
def flipFlags (f : SysFlags) : SysFlags :=
  { f with lostage := !f.lostage, histage := !f.histage, adaptive := !f.adaptive }

/-- Clear the conforming bit, leaving every other bit alone (used to state
that the dispatch loop never consults the conforming bit once resolution has
run). -/
def SysFlags.dropConforming (f : SysFlags) : SysFlags := { f with conforming := false }

/-- Result of `prepare_for_signal`: either the thread left through
cooperative cancellation (`xnthread_test_cancel` fired, the call never
returns the ordinary way) or the interposer returned normally. -/
inductive PostSig where
  | cancelled (s : SysState)
  | returned (s : SysState)
deriving DecidableEq, Repr

/-- `prepare_for_signal(p, thread, regs, sysflags)`: if `XNKICKED` is set
and a host signal is pending, overwrite the status with `-EINTR`
(norestart) or `-ERESTARTSYS`, compute the debug notification, and clear
`XNBREAK`; whenever `XNKICKED` was set, clear it.  Then test for
cancellation and finally relax with the signal-delivery cause.  The three
branches share the cancel-test and relax tail, written out per branch. -/
def prepare_for_signal (env : Env) (f : SysFlags) (t : Thread) (s : SysState) : PostSig :=
  if t.kicked then
    if env.signalPending then
      let s1 := { s with status := some (if f.norestart then -EINTR else -ERESTARTSYS) }
      let t1 : Thread := { t with breakbit := false, kicked := false }
      let notify := !t.debug
      let s2 := { s1 with thread := some t1 }
      if t1.cancelled then .cancelled s2
      else .returned (xnthread_relax notify .migrateSignal s2)
    else
      let t1 : Thread := { t with kicked := false }
      let s2 := { s with thread := some t1 }
      if t1.cancelled then .cancelled s2
      else .returned (xnthread_relax false .migrateSignal s2)
  else
    let s2 := { s with thread := some t }
    if t.cancelled then .cancelled s2
    else .returned (xnthread_relax false .migrateSignal s2)

/-- Overall outcome of a dispatcher entry: `propagate` is
`KEVENT_PROPAGATE`, `stop` is `KEVENT_STOP` (call handled, result written),
`cancelled` means the thread left through cooperative cancellation, and
`fault` marks the states in which the C code would dereference a NULL
thread pointer (unreachable for well-formed callers). -/
inductive DispatchOut where
  | propagate (s : SysState)
  | stop (s : SysState)
  | cancelled (s : SysState)
  | fault (s : SysState)
deriving DecidableEq, Repr

/-- The state carried by a dispatcher outcome. -/
def DispatchOut.finalState : DispatchOut → SysState
  | .propagate s => s
  | .stop s => s
  | .cancelled s => s
  | .fault s => s

/-- Exit of the head dispatch loop: either the event is propagated to the
root handler, or the loop is done with the handler (or harden) result, the
`switched` flag, the flags as of the exit, the state, and the number of
handler invocations performed so far. -/
inductive HeadLoopExit where
  | propagate (s : SysState)
  | done (ret : Int) (switched : Bool) (flags : SysFlags) (s : SysState) (k : Nat)
deriving DecidableEq, Repr

/-- The state carried by a head-loop exit. -/
def HeadLoopExit.state : HeadLoopExit → SysState
  | .propagate s => s
  | .done _ _ _ s _ => s

/-- One iteration of the head dispatcher's restart loop
(`handle_head_syscall`, label `restart`): stage selection (relax for
lostage requests from the Xenomai domain, propagate when the request must
be served from the other domain), handler invocation, and the adaptive
restart (`rec` stands for `goto restart`; on a restart after a switch the
caller is re-hardened first, failure exiting through `done`). -/
def head_iter (env : Env) (ipd : Domain)
    (rec : SysFlags → Bool → Nat → SysState → Option HeadLoopExit)
    (flags : SysFlags) (switched : Bool) (k : Nat) (s : SysState) :
    Option HeadLoopExit :=
  let stage : Sum SysState (Bool × SysState) :=
    if flags.lostage then
      if ipd = .control then .inr (true, xnthread_relax true .migrateSyscall s)
      else .inl s
    else if flags.histage || flags.curdom then
      if ipd = .control then .inr (switched, s) else .inl s
    else .inr (switched, s)
  match stage with
  | .inl s1 => some (.propagate s1)
  | .inr (sw1, s1) =>
    let (ret, s2) := invoke env k s1
    if ret = -ENOSYS ∧ flags.adaptive = true then
      if sw1 then
        let (hret, s3) := xnthread_harden env s2
        if hret = 0 then rec (flipFlags flags) false (k + 1) s3
        else some (.done hret false flags s3 (k + 1))
      else rec (flipFlags flags) sw1 (k + 1) s2
    else some (.done ret sw1 flags s2 (k + 1))

/-- The head dispatch loop, fuel-bounded.  Fuel 2 always suffices (proved
below): a restart XORs the adaptive bit off, so at most one restart occurs. -/
def head_loop (env : Env) (ipd : Domain) :
    Nat → SysFlags → Bool → Nat → SysState → Option HeadLoopExit
  | 0 => fun _ _ _ _ => none
  | fuel + 1 => head_iter env ipd (head_loop env ipd fuel)

/-- Post-call processing of `handle_head_syscall`: write the status, then —
only when not running over the root scheduler — run signal interposition if
a host signal is pending or `XNKICKED` is set, else absorb or force a relax
for weak threads holding no resources; finally, re-enter the control domain
best-effort when `switchback` is set, no interposition ran, and the call
had switched. -/
def head_post (env : Env) (f : SysFlags) (ret : Int) (switched : Bool) (s : SysState) :
    DispatchOut :=
  let s0 := { s with status := some ret }
  if s0.dom = .control then
    match s0.thread with
    | none => .fault s0
    | some t =>
      if env.signalPending || t.kicked then
        match prepare_for_signal env f t s0 with
        | .cancelled s1 => .cancelled s1
        | .returned s1 => .stop s1
      else
        let step : Bool × SysState :=
          if t.weak = true ∧ t.res_count = 0 then
            if switched then (false, s0) else (switched, xnthread_relax false .null s0)
          else (switched, s0)
        if f.switchback = true ∧ step.1 = true then .stop (xnthread_harden env step.2).2
        else .stop step.2
  else
    if f.switchback = true ∧ switched = true then .stop (xnthread_harden env s0).2
    else .stop s0

/-- Glue from a head-loop exit to the dispatcher outcome. -/
def head_finish (env : Env) (e : Option HeadLoopExit) (s0 : SysState) : DispatchOut :=
  match e with
  | none => .fault s0
  | some (.propagate s) => .propagate s
  | some (.done ret switched f s _) => head_post env f ret switched s

/-- The permission gate of `handle_head_syscall`:
`(process == NULL && nr != sc_cobalt_bind) || (thread == NULL && (sysflags &
__xn_exec_shadow)) || (!cap_raised(CAP_SYS_NICE) && nr != sc_cobalt_bind)`. -/
def perm_denied (env : Env) (nr : Int) (f : SysFlags) (th : Option Thread) : Bool :=
  (!env.processBound && decide (nr ≠ (env.bindNr : Int))) ||
  (th.isNone && f.shadow) ||
  (!env.cap_sys_nice && decide (nr ≠ (env.bindNr : Int)))

/-- `handle_head_syscall(ipd, regs)`: recognition check (a non-Cobalt frame
is propagated, after relaxing the caller when it sits in the head domain),
range check answering `-ENOSYS`, permission gate answering `-EPERM`,
conforming resolution, dispatch loop, post-call processing. -/
def handle_head_syscall (env : Env) (ipd : Domain) (nr : Int) (s : SysState) :
    DispatchOut :=
  if env.cobaltCall = false then
    if s.dom = .relaxed then .propagate s
    else .propagate (xnthread_relax true .migrateSyscall s)
  else if nr < 0 ∨ (env.numSyscalls : Int) ≤ nr then
    .stop { s with status := some (-ENOSYS) }
  else
    let f := env.sysmodes nr.toNat
    if perm_denied env nr f s.thread then
      .stop { s with status := some (-EPERM) }
    else
      head_finish env (head_loop env ipd 2 (resolveConforming f s.thread) false 0 s) s

/-- Exit of the root dispatch loop: either hardening failed before the
handler ran (`errExit` carries the migration error which becomes the call's
status) or the loop is done. -/
inductive RootLoopExit where
  | errExit (err : Int) (s : SysState)
  | done (ret : Int) (switched : Bool) (flags : SysFlags) (s : SysState) (k : Nat)
deriving DecidableEq, Repr

/-- The state carried by a root-loop exit. -/
def RootLoopExit.state : RootLoopExit → SysState
  | .errExit _ s => s
  | .done _ _ _ s _ => s

/-- One iteration of the root dispatcher's restart loop
(`handle_root_syscall`, label `restart`): harden first for histage
requests (failure writes the error and exits), invoke the handler, and on
adaptive restart relax back if the call had hardened before flipping the
flags. -/
def root_iter (env : Env)
    (rec : SysFlags → Nat → SysState → Option RootLoopExit)
    (flags : SysFlags) (k : Nat) (s : SysState) : Option RootLoopExit :=
  let stage : Sum (Int × SysState) (Bool × SysState) :=
    if flags.histage then
      let (hret, s1) := xnthread_harden env s
      if hret = 0 then .inr (true, s1) else .inl (hret, s1)
    else .inr (false, s)
  match stage with
  | .inl (err, s1) => some (.errExit err s1)
  | .inr (sw1, s1) =>
    let (ret, s2) := invoke env k s1
    if ret = -ENOSYS ∧ flags.adaptive = true then
      let s3 := if sw1 then xnthread_relax true .migrateSyscall s2 else s2
      rec (flipFlags flags) (k + 1) s3
    else some (.done ret sw1 flags s2 (k + 1))

/-- The root dispatch loop, fuel-bounded like `head_loop`. -/
def root_loop (env : Env) : Nat → SysFlags → Nat → SysState → Option RootLoopExit
  | 0 => fun _ _ _ => none
  | fuel + 1 => root_iter env (root_loop env fuel)

/-- Post-call processing of `handle_root_syscall`: write the status; when
not over the root scheduler, run signal interposition if a host signal is
pending, else force the switchback bit for weak threads holding no
resources; finally relax when switchback is requested and the call had
switched or the thread is still in primary mode. -/
def root_post (env : Env) (f : SysFlags) (ret : Int) (switched : Bool) (s : SysState) :
    DispatchOut :=
  let s0 := { s with status := some ret }
  if s0.dom = .control then
    match s0.thread with
    | none => .fault s0
    | some t =>
      if env.signalPending then
        match prepare_for_signal env f t s0 with
        | .cancelled s1 => .cancelled s1
        | .returned s1 => .stop s1
      else
        let f1 := if t.weak = true ∧ t.res_count = 0 then { f with switchback := true } else f
        if f1.switchback = true ∧ (switched = true ∨ s0.dom = .control) then
          .stop (xnthread_relax false .null s0)
        else .stop s0
  else
    if f.switchback = true ∧ (switched = true ∨ s0.dom = .control) then
      .stop (xnthread_relax false .null s0)
    else .stop s0

/-- Glue from a root-loop exit to the dispatcher outcome. -/
def root_finish (env : Env) (e : Option RootLoopExit) (s0 : SysState) : DispatchOut :=
  match e with
  | none => .fault s0
  | some (.errExit err s) => .stop { s with status := some err }
  | some (.done ret switched f s _) => root_post env f ret switched s

/-- `handle_root_syscall(ipd, regs)`: test for pending cancellation on
entry, propagate non-Cobalt frames, then (range already checked by the head
handler) conforming resolution, dispatch loop, post-call processing. -/
def handle_root_syscall (env : Env) (nr : Int) (s : SysState) : DispatchOut :=
  if xnthread_test_cancel s then .cancelled s
  else if env.cobaltCall = false then .propagate s
  else
    root_finish env (root_loop env 2 (resolveConforming (env.sysmodes nr.toNat) s.thread) 0 s) s

/-- The pipeline a syscall event traverses: the head-domain handler sees it
first in the caller's current domain; `KEVENT_PROPAGATE` falls through to
the root handler. -/
def cobalt_syscall_event (env : Env) (nr : Int) (s : SysState) : DispatchOut :=
  match handle_head_syscall env s.dom nr s with
  | .propagate s1 => handle_root_syscall env nr s1
  | out => out

/-! ### Concrete inputs used by witnesses and counterexamples -/

/-- A benign environment: recognized call, no signals, privileged, bound,
hardening succeeds, every handler returns 0, 3-entry table, bind at 0. -/
def envBase : Env :=
  { cobaltCall := true, signalPending := false, cap_sys_nice := true,
    processBound := true, hardenRet := 0, handler := fun _ => 0,
    numSyscalls := 3, bindNr := 0, sysmodes := fun _ => {} }

/-- Environment whose hardening attempts are denied with `-EPERM` and whose
mode table maps every id to `primary`. -/
def envHardenFail : Env :=
  { envBase with hardenRet := -EPERM, sysmodes := fun _ => xnExecPrimary }

/-- A relaxed caller with a default-flag shadow thread. -/
def sRelaxedShadow : SysState := { dom := .relaxed, thread := some {} }

/-- A kicked thread with a cancellation pending. -/
def tKickedCancelled : Thread := { kicked := true, cancelled := true }

/-- Unprivileged, unbound environment whose mode table maps every id to the
bare `lostage` mode (the mode of `sc_cobalt_bind`). -/
def envBindOnly : Env :=
  { envBase with
    processBound := false, cap_sys_nice := false,
    sysmodes := fun _ => xnExecLostage }

/-! ### Unfolding and bookkeeping lemmas -/

lemma head_loop_succ (env : Env) (ipd : Domain) (fuel : Nat) :
    head_loop env ipd (fuel + 1) = head_iter env ipd (head_loop env ipd fuel) := rfl

lemma root_loop_succ (env : Env) (fuel : Nat) :
    root_loop env (fuel + 1) = root_iter env (root_loop env fuel) := rfl

lemma head_loop_two (env : Env) (ipd : Domain) :
    head_loop env ipd 2 = head_iter env ipd (head_iter env ipd (head_loop env ipd 0)) := rfl

lemma root_loop_two (env : Env) :
    root_loop env 2 = root_iter env (root_iter env (root_loop env 0)) := rfl

lemma drop_lostage (f : SysFlags) : f.dropConforming.lostage = f.lostage := rfl

lemma drop_histage (f : SysFlags) : f.dropConforming.histage = f.histage := rfl

lemma drop_curdom (f : SysFlags) : f.dropConforming.curdom = f.curdom := rfl

lemma drop_adaptive (f : SysFlags) : f.dropConforming.adaptive = f.adaptive := rfl

lemma flip_drop (f : SysFlags) :
    flipFlags f.dropConforming = (flipFlags f).dropConforming := rfl

lemma drop_switchback (f : SysFlags) : f.dropConforming.switchback = f.switchback := rfl

lemma prepare_drop (env : Env) (f : SysFlags) (t : Thread) (s : SysState) :
    prepare_for_signal env f.dropConforming t s = prepare_for_signal env f t s := rfl

lemma head_post_drop (env : Env) (f : SysFlags) (ret : Int) (sw : Bool) (s : SysState) :
    head_post env f.dropConforming ret sw s = head_post env f ret sw s := rfl

lemma root_post_drop (env : Env) (f : SysFlags) (ret : Int) (sw : Bool) (s : SysState) :
    root_post env f.dropConforming ret sw s = root_post env f ret sw s := by
  unfold root_post
  simp only [prepare_drop, drop_switchback, apply_ite SysFlags.switchback]

/-- The head dispatch loop followed by its post-processing never consults
the conforming bit: clearing it before the loop changes nothing. -/
lemma head_finish_drop (env : Env) (ipd : Domain) (s0 : SysState) :
    ∀ (fuel : Nat) (f : SysFlags) (sw : Bool) (k : Nat) (s : SysState),
      head_finish env (head_loop env ipd fuel f.dropConforming sw k s) s0 =
        head_finish env (head_loop env ipd fuel f sw k s) s0 := by
  intro fuel
  induction fuel with
  | zero => intro f sw k s; rfl
  | succ n ih =>
    intro f sw k s
    show head_finish env (head_iter env ipd (head_loop env ipd n) f.dropConforming sw k s) s0 =
      head_finish env (head_iter env ipd (head_loop env ipd n) f sw k s) s0
    unfold head_iter
    simp only [drop_lostage, drop_histage, drop_curdom, drop_adaptive, flip_drop]
    cases ipd <;>
      by_cases hl : f.lostage = true <;>
        by_cases hh : (f.histage || f.curdom) = true <;>
          by_cases ha : f.adaptive = true <;>
            by_cases he : env.handler k = -ENOSYS <;>
              by_cases hw : env.hardenRet = 0 <;>
                by_cases hsw : sw = true <;>
                  simp [hl, hh, ha, he, hw, hsw, invoke, xnthread_harden] <;>
                    first
                      | rfl
                      | exact ih _ _ _ _

/-- The root dispatch loop followed by its post-processing never consults
the conforming bit either. -/
lemma root_finish_drop (env : Env) (s0 : SysState) :
    ∀ (fuel : Nat) (f : SysFlags) (k : Nat) (s : SysState),
      root_finish env (root_loop env fuel f.dropConforming k s) s0 =
        root_finish env (root_loop env fuel f k s) s0 := by
  intro fuel
  induction fuel with
  | zero => intro f k s; rfl
  | succ n ih =>
    intro f k s
    show root_finish env (root_iter env (root_loop env n) f.dropConforming k s) s0 =
      root_finish env (root_iter env (root_loop env n) f k s) s0
    unfold root_iter
    simp only [drop_histage, drop_adaptive, flip_drop]
    by_cases hh : f.histage = true <;>
      by_cases ha : f.adaptive = true <;>
        by_cases he : env.handler k = -ENOSYS <;>
          by_cases hw : env.hardenRet = 0 <;>
            simp [hh, ha, he, hw, invoke, xnthread_harden] <;>
              first
                | rfl
                | exact ih _ _ _
                | simp [root_finish, root_post_drop]

/-- Packaging lemma: a loop result known to be a specific exit whose calls
trace extends the entry trace by `cs` satisfies the bounded-retry
conclusions (defined over any exit type via a state projection). -/
lemma loop_concl {α : Type} (st : α → SysState) (P : Prop) (lo : Option α)
    (s : SysState) (cs : List Domain) (e0 : α) (heq : lo = some e0)
    (hc : (st e0).calls = s.calls ++ cs) (hlen : cs.length ≤ 2)
    (hcmp : P → ∀ d1 d2, cs = [d1, d2] → d2 = d1.other) :
    lo.isSome = true ∧
      ∀ e, lo = some e → (st e).calls.length ≤ s.calls.length + 2 ∧
        (P → ∀ d1 d2, (st e).calls = s.calls ++ [d1, d2] → d2 = d1.other) := by
  subst heq
  refine ⟨rfl, ?_⟩
  intro e he
  rw [Option.some_inj] at he
  subst he
  constructor
  · rw [hc]
    simp only [List.length_append]
    omega
  · intro hx d1 d2 h2
    rw [hc] at h2
    exact hcmp hx d1 d2 (List.append_cancel_left h2)

/-- One iteration of the head loop that does not take the adaptive restart
(either because the adaptive bit is clear or because the handler did not
return `-ENOSYS`): it either propagates with the state untouched or exits
`done` having invoked the handler exactly once, in the relaxed domain for a
lostage request and in the current domain otherwise. -/
lemma head_iter_no_restart (env : Env) (ipd : Domain)
    (rec : SysFlags → Bool → Nat → SysState → Option HeadLoopExit)
    (f : SysFlags) (sw : Bool) (k : Nat) (s : SysState)
    (hna : ¬(env.handler k = -ENOSYS ∧ f.adaptive = true)) :
    head_iter env ipd rec f sw k s = some (.propagate s) ∨
    ∃ sw1 s1, head_iter env ipd rec f sw k s = some (.done (env.handler k) sw1 f s1 (k + 1)) ∧
      s1.calls = s.calls ++ [if f.lostage = true then Domain.relaxed else s.dom] ∧
      s1.dom = (if f.lostage = true then Domain.relaxed else s.dom) := by
  unfold head_iter
  by_cases hl : f.lostage = true
  · by_cases hip : ipd = .control
    · right
      refine ⟨true, (invoke env k (xnthread_relax true RelaxCause.migrateSyscall s)).2,
        ?_, ?_, ?_⟩
      · simp [hl, hip, hna, invoke, xnthread_relax]
      · simp [hl, invoke, xnthread_relax]
      · simp [hl, invoke, xnthread_relax]
    · left
      simp [hl, hip]
  · by_cases hho : (f.histage || f.curdom) = true
    · by_cases hip : ipd = .control
      · right
        refine ⟨sw, (invoke env k s).2, ?_, ?_, ?_⟩
        · simp [hl, hho, hip, hna, invoke]
        · simp [hl, invoke]
        · simp [hl, invoke]
      · left
        simp [hl, hho, hip]
    · right
      refine ⟨sw, (invoke env k s).2, ?_, ?_, ?_⟩
      · simp [hl, hho, hna, invoke]
      · simp [hl, invoke]
      · simp [hl, invoke]

/-- One iteration of the root loop that does not take the adaptive restart:
it either fails to harden (error exit, no handler invocation) or exits
`done` having invoked the handler exactly once, in the control domain for a
histage request and in the current domain otherwise. -/
lemma root_iter_no_restart (env : Env)
    (rec : SysFlags → Nat → SysState → Option RootLoopExit)
    (f : SysFlags) (k : Nat) (s : SysState)
    (hna : ¬(env.handler k = -ENOSYS ∧ f.adaptive = true)) :
    root_iter env rec f k s =
      some (.errExit env.hardenRet { s with events := s.events ++ [.harden false] }) ∨
    ∃ sw1 s1, root_iter env rec f k s = some (.done (env.handler k) sw1 f s1 (k + 1)) ∧
      s1.calls = s.calls ++ [if f.histage = true then Domain.control else s.dom] ∧
      s1.dom = (if f.histage = true then Domain.control else s.dom) := by
  unfold root_iter
  by_cases hh : f.histage = true
  · by_cases hw : env.hardenRet = 0
    · right
      refine ⟨true, (invoke env k (xnthread_harden env s).2).2, ?_, ?_, ?_⟩
      · simp [hh, hw, hna, invoke, xnthread_harden]
      · simp [hh, hw, invoke, xnthread_harden]
      · simp [hh, hw, invoke, xnthread_harden]
    · left
      simp [hh, hw, xnthread_harden]
  · right
    refine ⟨false, (invoke env k s).2, ?_, ?_, ?_⟩
    · simp [hh, hna, invoke]
    · simp [hh, invoke]
    · simp [hh, invoke]

/-- `prepare_for_signal` can only return normally through the final
`xnthread_relax`, so a normal return always leaves the thread relaxed. -/
lemma prepare_returned_relaxed (env : Env) (f : SysFlags) (t : Thread)
    (s s1 : SysState) (h : prepare_for_signal env f t s = .returned s1) :
    s1.dom = .relaxed := by
  unfold prepare_for_signal at h
  by_cases hk : t.kicked <;> by_cases hs : env.signalPending <;>
    by_cases hc : t.cancelled <;>
      simp [hk, hs, hc, xnthread_relax] at h <;>
        simp [← h]

set_option maxHeartbeats 1000000 in
/-- Invariant of the head dispatch loop when entered (as the dispatcher
does) with `switched` clear: a `done` exit carrying `switched = true` can
only arise from the relax taken for a lostage request, so the exit state is
in the relaxed domain. -/
lemma head_loop_switched (env : Env) (ipd : Domain) :
    ∀ (fuel : Nat) (f : SysFlags) (sw : Bool) (k : Nat) (s : SysState)
      (ret : Int) (sw1 : Bool) (f1 : SysFlags) (s1 : SysState) (k1 : Nat),
      (sw = true → s.dom = .relaxed) →
      head_loop env ipd fuel f sw k s = some (.done ret sw1 f1 s1 k1) →
      sw1 = true → s1.dom = .relaxed := by
  intro fuel
  induction fuel with
  | zero =>
    intro f sw k s ret sw1 f1 s1 k1 hinv h
    simp [head_loop] at h
  | succ n ih =>
    intro f sw k s ret sw1 f1 s1 k1 hinv h hsw1
    rw [head_loop_succ] at h
    unfold head_iter at h
    cases ipd <;>
      by_cases hl : f.lostage = true <;>
        by_cases hho : (f.histage || f.curdom) = true <;>
          by_cases hres : env.handler k = -ENOSYS ∧ f.adaptive = true <;>
            by_cases hw : env.hardenRet = 0 <;>
              by_cases hsw : sw = true <;>
                simp [hl, hho, hres, hw, hsw, invoke, xnthread_relax, xnthread_harden] at h <;>
                  first
                    | exact ih _ _ _ _ _ _ _ _ _ hinv h hsw1
                    | exact ih _ _ _ _ _ _ _ _ _ (fun hh => absurd hh (by simp)) h hsw1
                    | exact ih _ _ _ _ _ _ _ _ _ hinv h rfl
                    | exact ih _ _ _ _ _ _ _ _ _ (fun hh => absurd hh (by simp)) h rfl
                    | (obtain ⟨h1, h2, h3, h4, h5⟩ := h
                       subst h4
                       first
                         | rfl
                         | exact hinv (by simp_all)
                         | simp_all)
                    | simp_all

set_option maxHeartbeats 1000000 in
/-- Invariant of the root dispatch loop: a `done` exit carrying
`switched = true` can only arise from a successful harden for a histage
request, so the exit state is in the control domain. -/
lemma root_loop_switched (env : Env) :
    ∀ (fuel : Nat) (f : SysFlags) (k : Nat) (s : SysState)
      (ret : Int) (sw1 : Bool) (f1 : SysFlags) (s1 : SysState) (k1 : Nat),
      root_loop env fuel f k s = some (.done ret sw1 f1 s1 k1) →
      sw1 = true → s1.dom = .control := by
  intro fuel
  induction fuel with
  | zero =>
    intro f k s ret sw1 f1 s1 k1 h
    simp [root_loop] at h
  | succ n ih =>
    intro f k s ret sw1 f1 s1 k1 h hsw1
    rw [root_loop_succ] at h
    unfold root_iter at h
    by_cases hh : f.histage = true <;>
      by_cases hres : env.handler k = -ENOSYS ∧ f.adaptive = true <;>
        by_cases hw : env.hardenRet = 0 <;>
          simp [hh, hres, hw, invoke, xnthread_relax, xnthread_harden] at h <;>
            first
              | exact ih _ _ _ _ _ _ _ _ h hsw1
              | exact ih _ _ _ _ _ _ _ _ h rfl
              | (obtain ⟨h1, h2, h3, h4, h5⟩ := h
                 first
                   | (subst h4; rfl)
                   | simp_all)
              | simp_all

/-! ### Claim theorems -/

/-- Claim C7: for every call id outside the valid range the dispatcher
writes `-ENOSYS` into the frame, terminates the call as handled, and no
handler is ever invoked (the final state's `calls` trace is unchanged).
The composed pipeline shows this covers calls arriving in either domain:
the head handler performs the range check and stops, so the root handler,
which performs no range check of its own, is never reached. -/
theorem bad_syscall_not_implemented (env : Env) (nr : Int) (s : SysState)
    (hc : env.cobaltCall = true) (hr : nr < 0 ∨ (env.numSyscalls : Int) ≤ nr) :
    cobalt_syscall_event env nr s = .stop { s with status := some (-ENOSYS) } := by
  unfold cobalt_syscall_event handle_head_syscall
  simp [hc, hr]

/-- Witness for `bad_syscall_not_implemented` at a concrete out-of-range id. -/
theorem bad_syscall_not_implemented_witness :
    cobalt_syscall_event envBase 9 { dom := .relaxed, thread := none } =
      .stop { dom := .relaxed, thread := none, status := some (-ENOSYS) } :=
  bad_syscall_not_implemented envBase 9 { dom := .relaxed, thread := none }
    rfl (by decide)

/-- Claim C4: in the relaxed-domain dispatcher, when the effective mode
requires the control domain and hardening fails, the migration error is
written as the call's status and the call terminates as handled with the
handler never invoked (`calls` unchanged, only the failed harden traced). -/
theorem root_harden_failure (env : Env) (nr : Int) (s : SysState)
    (hcan : xnthread_test_cancel s = false) (hc : env.cobaltCall = true)
    (hist : (resolveConforming (env.sysmodes nr.toNat) s.thread).histage = true)
    (hh : env.hardenRet ≠ 0) :
    handle_root_syscall env nr s =
      .stop { s with
              status := some env.hardenRet,
              events := s.events ++ [.harden false] } := by
  unfold handle_root_syscall
  rw [root_loop_two]
  unfold root_iter
  simp [hcan, hc, hist, xnthread_harden, hh, root_finish]

/-- Witness for `root_harden_failure`: a `primary`-mode call from the
relaxed domain with hardening denied. -/
theorem root_harden_failure_witness :
    handle_root_syscall envHardenFail 1 sRelaxedShadow =
      .stop { dom := .relaxed, thread := some {}, status := some (-EPERM),
              events := [.harden false] } :=
  root_harden_failure envHardenFail 1 sRelaxedShadow rfl rfl rfl (by decide)

/-- Counterexample to claim C5 as stated: interposition entered with
`Kicked` set and a host signal pending, but a cancellation also pending.
The status is overwritten and `Kicked` is cleared, yet the thread is NOT
migrated to the relaxed domain with a signal-delivery cause — it leaves
through cooperative cancellation first, the final domain is still the
control domain and no relax was traced. -/
theorem kicked_signal_counterexample :
    prepare_for_signal { envBase with signalPending := true } {} tKickedCancelled
        { dom := .control, thread := some tKickedCancelled } =
      .cancelled { dom := .control, thread := some { cancelled := true },
                   status := some (-ERESTARTSYS), events := [], calls := [] } := rfl

/-- Claim C5 (amended): whenever interposition runs with `Kicked` set and a
host signal pending and no cancellation is pending (cancellation takes
precedence, see the counterexample), the call's status is overwritten with
`-ERESTARTSYS`, or `-EINTR` when the mode has `norestart`; `Kicked` (and
`XNBREAK`) are cleared; the thread is relaxed with the signal-delivery
cause; and the debug notification is requested iff the thread was not
already in the `XNDEBUG` state. -/
theorem kicked_signal_interposition (env : Env) (f : SysFlags) (t : Thread) (s : SysState)
    (hk : t.kicked = true) (hs : env.signalPending = true) (hc : t.cancelled = false) :
    prepare_for_signal env f t s =
      .returned
        { s with
          dom := .relaxed,
          thread := some { t with breakbit := false, kicked := false },
          status := some (if f.norestart then -EINTR else -ERESTARTSYS),
          events := s.events ++ [.relax (!t.debug) .migrateSignal] } := by
  unfold prepare_for_signal
  simp [hk, hs, hc, xnthread_relax]

/-- Witness for `kicked_signal_interposition`: kicked thread, signal
pending, `nonrestartable` mode, no cancellation. -/
theorem kicked_signal_interposition_witness :
    prepare_for_signal { envBase with signalPending := true } xnExecNonrestartable
        { kicked := true } { dom := .control, thread := some { kicked := true } } =
      .returned { dom := .relaxed, thread := some {}, status := some (-EINTR),
                  events := [.relax true .migrateSignal], calls := [] } :=
  kicked_signal_interposition { envBase with signalPending := true }
    xnExecNonrestartable { kicked := true }
    { dom := .control, thread := some { kicked := true } } rfl rfl rfl

/-- Claim C8: cancellation takes precedence over ordinary signal handling.
Whenever a cancellation is pending at the interposition point the
interposer never returns the ordinary way, so no ordinary status reaches
the original caller; this holds at both dispatchers' post-call steps even
when a host signal is pending simultaneously, and the relaxed-domain
dispatcher additionally short-circuits into cancellation at entry. -/
theorem cancellation_precedence :
    (∀ (env : Env) (f : SysFlags) (t : Thread) (s : SysState), t.cancelled = true →
      ∃ s1, prepare_for_signal env f t s = .cancelled s1) ∧
    (∀ (env : Env) (f : SysFlags) (ret : Int) (sw : Bool) (s : SysState) (t : Thread),
      s.dom = .control → s.thread = some t → env.signalPending = true →
      t.cancelled = true → ∃ s1, head_post env f ret sw s = .cancelled s1) ∧
    (∀ (env : Env) (f : SysFlags) (ret : Int) (sw : Bool) (s : SysState) (t : Thread),
      s.dom = .control → s.thread = some t → env.signalPending = true →
      t.cancelled = true → ∃ s1, root_post env f ret sw s = .cancelled s1) ∧
    (∀ (env : Env) (nr : Int) (s : SysState), xnthread_test_cancel s = true →
      handle_root_syscall env nr s = .cancelled s) := by
  have hprep : ∀ (env : Env) (f : SysFlags) (t : Thread) (s : SysState), t.cancelled = true →
      ∃ s1, prepare_for_signal env f t s = .cancelled s1 := by
    intro env f t s hc
    unfold prepare_for_signal
    by_cases hk : t.kicked <;> by_cases hsig : env.signalPending <;>
      simp [hk, hsig, hc]
  refine ⟨hprep, ?_, ?_, ?_⟩
  · intro env f ret sw s t hdom hth hsig hc
    rcases s with ⟨d, th, st, ev, ca⟩
    dsimp only at hdom hth
    subst hdom
    subst hth
    obtain ⟨s1, h1⟩ := hprep env f t
      { dom := .control, thread := some t, status := some ret,
        events := ev, calls := ca } hc
    exact ⟨s1, by simp [head_post, hsig, h1]⟩
  · intro env f ret sw s t hdom hth hsig hc
    rcases s with ⟨d, th, st, ev, ca⟩
    dsimp only at hdom hth
    subst hdom
    subst hth
    obtain ⟨s1, h1⟩ := hprep env f t
      { dom := .control, thread := some t, status := some ret,
        events := ev, calls := ca } hc
    exact ⟨s1, by simp [root_post, hsig, h1]⟩
  · intro env nr s hcan
    unfold handle_root_syscall
    simp [hcan]

/-- Witness for `cancellation_precedence`: its entry-point conjunct at a
concrete cancelled thread. -/
theorem cancellation_precedence_witness :
    handle_root_syscall envBase 1
        { dom := .relaxed, thread := some { cancelled := true } } =
      .cancelled { dom := .relaxed, thread := some { cancelled := true } } :=
  cancellation_precedence.2.2.2 envBase 1
    { dom := .relaxed, thread := some { cancelled := true } } rfl

/-- Claim C10 (implicit): when interposition is entered with a host signal
pending but `Kicked` clear, the status slot is left untouched and the
thread's flags are not modified, yet the thread is still tested for
cancellation and still relaxed with the signal-delivery cause; at the
dispatchers' post-call steps this means the handler's status survives while
the thread still ends relaxed. -/
theorem unkicked_interposition :
    (∀ (env : Env) (f : SysFlags) (t : Thread) (s : SysState),
      t.kicked = false → s.thread = some t →
      prepare_for_signal env f t s =
        (if t.cancelled = true then .cancelled s
         else .returned
           { s with
             dom := .relaxed,
             events := s.events ++ [.relax false .migrateSignal] })) ∧
    (∀ (env : Env) (f : SysFlags) (ret : Int) (sw : Bool) (s : SysState) (t : Thread),
      s.dom = .control → s.thread = some t → t.kicked = false → t.cancelled = false →
      env.signalPending = true →
      head_post env f ret sw s =
        .stop
          { s with
            dom := .relaxed,
            status := some ret,
            events := s.events ++ [.relax false .migrateSignal] }) ∧
    (∀ (env : Env) (f : SysFlags) (ret : Int) (sw : Bool) (s : SysState) (t : Thread),
      s.dom = .control → s.thread = some t → t.kicked = false → t.cancelled = false →
      env.signalPending = true →
      root_post env f ret sw s =
        .stop
          { s with
            dom := .relaxed,
            status := some ret,
            events := s.events ++ [.relax false .migrateSignal] }) := by
  have hprep : ∀ (env : Env) (f : SysFlags) (t : Thread) (s : SysState),
      t.kicked = false → s.thread = some t →
      prepare_for_signal env f t s =
        (if t.cancelled = true then .cancelled s
         else .returned
           { s with
             dom := .relaxed,
             events := s.events ++ [.relax false .migrateSignal] }) := by
    intro env f t s hk hth
    rcases s with ⟨d, th, st, ev, ca⟩
    dsimp only at hth
    subst hth
    unfold prepare_for_signal
    simp [hk, xnthread_relax]
  refine ⟨hprep, ?_, ?_⟩
  · intro env f ret sw s t hdom hth hk hc hsig
    rcases s with ⟨d, th, st, ev, ca⟩
    dsimp only at hdom hth
    subst hdom
    subst hth
    have h1 := hprep env f t
      { dom := .control, thread := some t, status := some ret,
        events := ev, calls := ca } hk rfl
    rw [hc] at h1
    simp only [Bool.false_eq_true, if_false] at h1
    simp [head_post, hsig, h1]
  · intro env f ret sw s t hdom hth hk hc hsig
    rcases s with ⟨d, th, st, ev, ca⟩
    dsimp only at hdom hth
    subst hdom
    subst hth
    have h1 := hprep env f t
      { dom := .control, thread := some t, status := some ret,
        events := ev, calls := ca } hk rfl
    rw [hc] at h1
    simp only [Bool.false_eq_true, if_false] at h1
    simp [root_post, hsig, h1]

/-- Witness for `unkicked_interposition`: its head-dispatcher conjunct at a
concrete un-kicked thread with a pending signal. -/
theorem unkicked_interposition_witness :
    head_post { envBase with signalPending := true } {} 5 false
        { dom := .control, thread := some {} } =
      .stop { dom := .relaxed, thread := some {}, status := some 5,
              events := [.relax false .migrateSignal], calls := [] } :=
  unkicked_interposition.2.1 { envBase with signalPending := true } {} 5 false
    { dom := .control, thread := some {} } {} rfl rfl rfl rfl rfl

/-- Claim C3: the control-domain dispatcher's permission gate.  First, the
gate passes iff (a process binding exists or the call is the bind call) and
(a thread binding exists whenever the mode has the shadow bit) and (the
caller holds `CAP_SYS_NICE` or the call is the bind call).  Second, a
denied recognized in-range call is answered `-EPERM` with the handler never
invoked.  Third, any call other than bind without the privilege is denied.
Fourth, the bind call with no process binding and no privilege proceeds all
the way to its handler. -/
theorem permission_gate :
    (∀ (env : Env) (nr : Int) (f : SysFlags) (th : Option Thread),
      perm_denied env nr f th = false ↔
        ((env.processBound = true ∨ nr = (env.bindNr : Int)) ∧
         (f.shadow = true → th ≠ none) ∧
         (env.cap_sys_nice = true ∨ nr = (env.bindNr : Int)))) ∧
    (∀ (env : Env) (ipd : Domain) (nr : Int) (s : SysState),
      env.cobaltCall = true → ¬(nr < 0 ∨ (env.numSyscalls : Int) ≤ nr) →
      perm_denied env nr (env.sysmodes nr.toNat) s.thread = true →
      handle_head_syscall env ipd nr s = .stop { s with status := some (-EPERM) }) ∧
    (∀ (env : Env) (nr : Int) (f : SysFlags) (th : Option Thread),
      env.cap_sys_nice = false → nr ≠ (env.bindNr : Int) →
      perm_denied env nr f th = true) ∧
    (∀ (env : Env) (s : SysState),
      env.cobaltCall = true → env.processBound = false → env.cap_sys_nice = false →
      env.bindNr < env.numSyscalls → env.sysmodes env.bindNr = xnExecLostage →
      s.dom = .relaxed → s.thread = none →
      cobalt_syscall_event env (env.bindNr : Int) s =
        .stop { s with
                status := some (env.handler 0),
                calls := s.calls ++ [.relaxed] }) := by
  refine ⟨?_, ?_, ?_, ?_⟩
  · intro env nr f th
    by_cases hb : nr = (env.bindNr : Int) <;> cases th <;>
      cases hp : env.processBound <;> cases hcap : env.cap_sys_nice <;>
      cases hsh : f.shadow <;> simp [perm_denied, hb, hp, hcap, hsh]
  · intro env ipd nr s hc hnr hpd
    unfold handle_head_syscall
    simp [hc, hnr, hpd]
  · intro env nr f th hcap hb
    unfold perm_denied
    simp [hcap, hb]
  · intro env s hc hp hcap hbn hmode hdom hth
    have hnr : ¬(((env.bindNr : Nat) : Int) < 0 ∨
        (env.numSyscalls : Int) ≤ ((env.bindNr : Nat) : Int)) := by
      push_neg
      exact ⟨Int.natCast_nonneg _, by exact_mod_cast hbn⟩
    rcases s with ⟨d, th, st, ev, ca⟩
    dsimp only at hdom hth
    subst hdom
    subst hth
    unfold cobalt_syscall_event handle_head_syscall
    rw [head_loop_two]
    simp only [hc, hnr, Bool.false_eq_true, if_false, ite_false, ite_true,
      Int.toNat_natCast, hmode]
    simp [perm_denied, xnExecLostage, head_iter, head_finish,
      handle_root_syscall, xnthread_test_cancel, hc, resolveConforming,
      root_loop_two, root_iter, invoke, root_finish, root_post, hmode,
      Int.toNat_natCast, xnthread_harden, flipFlags]

/-- Witness for `permission_gate`: its bind-exemption conjunct at a
concrete unbound, unprivileged caller. -/
theorem permission_gate_witness :
    cobalt_syscall_event envBindOnly 0 { dom := .relaxed, thread := none } =
      .stop { dom := .relaxed, thread := none, status := some 0,
              calls := [.relaxed] } :=
  permission_gate.2.2.2 envBindOnly { dom := .relaxed, thread := none }
    rfl rfl rfl (by decide) rfl rfl rfl

/-- Claim C6: conforming-mode resolution.  For a mode with `conforming`
set, resolution adds `histage` exactly when a thread binding is present and
adds `lostage` exactly when it is absent; the resolution depends only on
the presence of a binding (determinism); and the bit is resolved away
before the loop inspects the stage bits: clearing `conforming` after
resolution changes neither dispatch loop's overall outcome. -/
theorem conforming_resolution :
    (∀ (f : SysFlags) (th : Option Thread), f.conforming = true →
      (resolveConforming f th).histage = (f.histage || th.isSome) ∧
      (resolveConforming f th).lostage = (f.lostage || !th.isSome)) ∧
    (∀ (f : SysFlags) (th1 th2 : Option Thread), th1.isSome = th2.isSome →
      resolveConforming f th1 = resolveConforming f th2) ∧
    (∀ (env : Env) (ipd : Domain) (s0 : SysState) (fuel : Nat) (f : SysFlags)
      (sw : Bool) (k : Nat) (s : SysState),
      head_finish env (head_loop env ipd fuel f.dropConforming sw k s) s0 =
        head_finish env (head_loop env ipd fuel f sw k s) s0) ∧
    (∀ (env : Env) (s0 : SysState) (fuel : Nat) (f : SysFlags) (k : Nat) (s : SysState),
      root_finish env (root_loop env fuel f.dropConforming k s) s0 =
        root_finish env (root_loop env fuel f k s) s0) := by
  refine ⟨?_, ?_, ?_, ?_⟩
  · intro f th hcf
    cases th <;> simp [resolveConforming, hcf]
  · intro f th1 th2 hsome
    cases th1 <;> cases th2 <;> simp_all [resolveConforming]
  · intro env ipd s0 fuel f sw k s
    exact head_finish_drop env ipd s0 fuel f sw k s
  · intro env s0 fuel f k s
    exact root_finish_drop env s0 fuel f k s

/-- Witness for `conforming_resolution`: the `probing` mode resolved
against a present thread binding. -/
theorem conforming_resolution_witness :
    (resolveConforming xnExecProbing (some {})).histage =
      (xnExecProbing.histage || (some ({} : Thread)).isSome) ∧
    (resolveConforming xnExecProbing (some {})).lostage =
      (xnExecProbing.lostage || !(some ({} : Thread)).isSome) :=
  conforming_resolution.1 xnExecProbing (some {}) rfl

/-- Claim C2: the adaptive restart is bounded to one retry.  The flip
clears the adaptive bit, so no third attempt is possible; with fuel 2 both
dispatch loops always terminate (`isSome`); any exit has invoked the
handler at most twice beyond the entry trace; and when the mode carries
exactly one of the stage bits, a second attempt always runs in the
complement of the first attempt's domain (for a loop entered from the
domain matching its dispatcher: `s.dom = ipd` for the head loop, relaxed
for the root loop). -/
theorem adaptive_retry_bounded :
    (∀ f : SysFlags, f.adaptive = true → (flipFlags f).adaptive = false) ∧
    (∀ (env : Env) (ipd : Domain) (f : SysFlags) (s : SysState), s.dom = ipd →
      (head_loop env ipd 2 f false 0 s).isSome = true ∧
      ∀ e, head_loop env ipd 2 f false 0 s = some e →
        (HeadLoopExit.state e).calls.length ≤ s.calls.length + 2 ∧
        (f.histage = (!f.lostage) → ∀ d1 d2,
          (HeadLoopExit.state e).calls = s.calls ++ [d1, d2] → d2 = d1.other)) ∧
    (∀ (env : Env) (f : SysFlags) (s : SysState), s.dom = .relaxed →
      (root_loop env 2 f 0 s).isSome = true ∧
      ∀ e, root_loop env 2 f 0 s = some e →
        (RootLoopExit.state e).calls.length ≤ s.calls.length + 2 ∧
        (f.histage = (!f.lostage) → ∀ d1 d2,
          (RootLoopExit.state e).calls = s.calls ++ [d1, d2] → d2 = d1.other)) := by
  refine ⟨?_, ?_, ?_⟩
  · intro f hf
    simp [flipFlags, hf]
  · intro env ipd f s hdi
    rw [head_loop_two]
    by_cases hres : env.handler 0 = -ENOSYS ∧ f.adaptive = true
    case neg =>
      rcases head_iter_no_restart env ipd (head_iter env ipd (head_loop env ipd 0))
          f false 0 s hres with h | ⟨sw1, s1, heq, hc, hdm⟩
      · exact loop_concl HeadLoopExit.state _ _ s [] _ h
          (by simp [HeadLoopExit.state]) (by simp)
          (by intro _ d1 d2 h2; simp at h2)
      · exact loop_concl HeadLoopExit.state _ _ s
          [if f.lostage = true then Domain.relaxed else s.dom] _ heq
          (by simpa [HeadLoopExit.state] using hc) (by simp)
          (by intro _ d1 d2 h2; simp at h2)
    case pos =>
      obtain ⟨he0, ha⟩ := hres
      have hflip : ¬(env.handler 1 = -ENOSYS ∧ (flipFlags f).adaptive = true) := by
        simp [flipFlags, ha]
      by_cases hl : f.lostage = true
      · by_cases hip : ipd = .control
        · by_cases hw : env.hardenRet = 0
          · have hstep :
                head_iter env ipd (head_iter env ipd (head_loop env ipd 0)) f false 0 s =
                head_iter env ipd (head_loop env ipd 0) (flipFlags f) false 1
                  ((xnthread_harden env
                    (invoke env 0 (xnthread_relax true RelaxCause.migrateSyscall s)).2).2) := by
              simp [head_iter, hl, hip, he0, ha, hw, invoke, xnthread_relax, xnthread_harden]
            rcases head_iter_no_restart env ipd (head_loop env ipd 0) (flipFlags f) false 1
                ((xnthread_harden env
                  (invoke env 0 (xnthread_relax true RelaxCause.migrateSyscall s)).2).2) hflip
              with h | ⟨sw1, s1, heq, hc, hdm⟩
            · refine loop_concl HeadLoopExit.state _ _ s [Domain.relaxed] _
                (hstep.trans h) ?_ (by simp) ?_
              · simp [HeadLoopExit.state, invoke, xnthread_relax, xnthread_harden, hw]
              · intro _ d1 d2 h2; simp at h2
            · refine loop_concl HeadLoopExit.state _ _ s [Domain.relaxed, Domain.control] _
                (hstep.trans heq) ?_ (by simp) ?_
              · have hflo : (flipFlags f).lostage = false := by simp [flipFlags, hl]
                simp [HeadLoopExit.state, hc, hflo, invoke, xnthread_relax,
                  xnthread_harden, hw]
              · intro _ d1 d2 h2
                cases d1 <;> cases d2 <;> simp_all [Domain.other]
          · have heqf :
                head_iter env ipd (head_iter env ipd (head_loop env ipd 0)) f false 0 s =
                some (.done env.hardenRet false f
                  ((xnthread_harden env
                    (invoke env 0 (xnthread_relax true RelaxCause.migrateSyscall s)).2).2) 1) := by
              simp [head_iter, hl, hip, he0, ha, hw, invoke, xnthread_relax, xnthread_harden]
            refine loop_concl HeadLoopExit.state _ _ s [Domain.relaxed] _ heqf ?_ (by simp) ?_
            · simp [HeadLoopExit.state, invoke, xnthread_relax, xnthread_harden, hw]
            · intro _ d1 d2 h2; simp at h2
        · have heqp :
              head_iter env ipd (head_iter env ipd (head_loop env ipd 0)) f false 0 s =
              some (.propagate s) := by
            simp [head_iter, hl, hip]
          exact loop_concl HeadLoopExit.state _ _ s [] _ heqp
            (by simp [HeadLoopExit.state]) (by simp)
            (by intro _ d1 d2 h2; simp at h2)
      · by_cases hho : (f.histage || f.curdom) = true
        · by_cases hip : ipd = .control
          · have hstep :
                head_iter env ipd (head_iter env ipd (head_loop env ipd 0)) f false 0 s =
                head_iter env ipd (head_loop env ipd 0) (flipFlags f) false 1
                  ((invoke env 0 s).2) := by
              simp [head_iter, hl, hho, hip, he0, ha, invoke]
            rcases head_iter_no_restart env ipd (head_loop env ipd 0) (flipFlags f) false 1
                ((invoke env 0 s).2) hflip with h | ⟨sw1, s1, heq, hc, hdm⟩
            · refine loop_concl HeadLoopExit.state _ _ s [s.dom] _
                (hstep.trans h) ?_ (by simp) ?_
              · simp [HeadLoopExit.state, invoke]
              · intro _ d1 d2 h2; simp at h2
            · refine loop_concl HeadLoopExit.state _ _ s [s.dom, Domain.relaxed] _
                (hstep.trans heq) ?_ (by simp) ?_
              · have hflo : (flipFlags f).lostage = true := by
                  simp [flipFlags]
                  simpa using hl
                simp [HeadLoopExit.state, hc, hflo, invoke]
              · intro _ d1 d2 h2
                rw [hdi, hip] at h2
                cases d1 <;> cases d2 <;> simp_all [Domain.other]
          · have heqp :
                head_iter env ipd (head_iter env ipd (head_loop env ipd 0)) f false 0 s =
                some (.propagate s) := by
              simp [head_iter, hl, hho, hip]
            exact loop_concl HeadLoopExit.state _ _ s [] _ heqp
              (by simp [HeadLoopExit.state]) (by simp)
              (by intro _ d1 d2 h2; simp at h2)
        · have hstep :
              head_iter env ipd (head_iter env ipd (head_loop env ipd 0)) f false 0 s =
              head_iter env ipd (head_loop env ipd 0) (flipFlags f) false 1
                ((invoke env 0 s).2) := by
            simp [head_iter, hl, hho, he0, ha, invoke]
          rcases head_iter_no_restart env ipd (head_loop env ipd 0) (flipFlags f) false 1
              ((invoke env 0 s).2) hflip with h | ⟨sw1, s1, heq, hc, hdm⟩
          · refine loop_concl HeadLoopExit.state _ _ s [s.dom] _
              (hstep.trans h) ?_ (by simp) ?_
            · simp [HeadLoopExit.state, invoke]
            · intro _ d1 d2 h2; simp at h2
          · refine loop_concl HeadLoopExit.state _ _ s [s.dom, Domain.relaxed] _
              (hstep.trans heq) ?_ (by simp) ?_
            · have hflo : (flipFlags f).lostage = true := by
                simp [flipFlags]
                simpa using hl
              simp [HeadLoopExit.state, hc, hflo, invoke]
            · intro hx d1 d2 h2
              exfalso
              have hlf : f.lostage = false := by simpa using hl
              rw [hlf] at hx
              simp at hx
              simp [hx] at hho
  · intro env f s hdr
    rw [root_loop_two]
    by_cases hres : env.handler 0 = -ENOSYS ∧ f.adaptive = true
    case neg =>
      rcases root_iter_no_restart env (root_iter env (root_loop env 0)) f 0 s hres
        with h | ⟨sw1, s1, heq, hc, hdm⟩
      · exact loop_concl RootLoopExit.state _ _ s [] _ h
          (by simp [RootLoopExit.state]) (by simp)
          (by intro _ d1 d2 h2; simp at h2)
      · exact loop_concl RootLoopExit.state _ _ s
          [if f.histage = true then Domain.control else s.dom] _ heq
          (by simpa [RootLoopExit.state] using hc) (by simp)
          (by intro _ d1 d2 h2; simp at h2)
    case pos =>
      obtain ⟨he0, ha⟩ := hres
      have hflip : ¬(env.handler 1 = -ENOSYS ∧ (flipFlags f).adaptive = true) := by
        simp [flipFlags, ha]
      by_cases hh : f.histage = true
      · by_cases hw : env.hardenRet = 0
        · have hstep : root_iter env (root_iter env (root_loop env 0)) f 0 s =
              root_iter env (root_loop env 0) (flipFlags f) 1
                (xnthread_relax true RelaxCause.migrateSyscall
                  (invoke env 0 (xnthread_harden env s).2).2) := by
            simp [root_iter, hh, hw, he0, ha, invoke, xnthread_harden, xnthread_relax]
          rcases root_iter_no_restart env (root_loop env 0) (flipFlags f) 1
              (xnthread_relax true RelaxCause.migrateSyscall
                (invoke env 0 (xnthread_harden env s).2).2) hflip
            with h | ⟨sw1, s1, heq, hc, hdm⟩
          · refine loop_concl RootLoopExit.state _ _ s [Domain.control] _
              (hstep.trans h) ?_ (by simp) ?_
            · simp [RootLoopExit.state, invoke, xnthread_harden, xnthread_relax, hw]
            · intro _ d1 d2 h2; simp at h2
          · refine loop_concl RootLoopExit.state _ _ s [Domain.control, Domain.relaxed] _
              (hstep.trans heq) ?_ (by simp) ?_
            · have hfh : (flipFlags f).histage = false := by simp [flipFlags, hh]
              simp [RootLoopExit.state, hc, hfh, invoke, xnthread_harden,
                xnthread_relax, hw]
            · intro _ d1 d2 h2
              cases d1 <;> cases d2 <;> simp_all [Domain.other]
        · have heqf : root_iter env (root_iter env (root_loop env 0)) f 0 s =
              some (.errExit env.hardenRet { s with events := s.events ++ [.harden false] }) := by
            simp [root_iter, hh, hw, xnthread_harden]
          exact loop_concl RootLoopExit.state _ _ s [] _ heqf
            (by simp [RootLoopExit.state]) (by simp)
            (by intro _ d1 d2 h2; simp at h2)
      · have hstep : root_iter env (root_iter env (root_loop env 0)) f 0 s =
            root_iter env (root_loop env 0) (flipFlags f) 1 ((invoke env 0 s).2) := by
          simp [root_iter, hh, he0, ha, invoke]
        rcases root_iter_no_restart env (root_loop env 0) (flipFlags f) 1
            ((invoke env 0 s).2) hflip with h | ⟨sw1, s1, heq, hc, hdm⟩
        · refine loop_concl RootLoopExit.state _ _ s [Domain.relaxed] _
            (hstep.trans h) ?_ (by simp) ?_
          · simp [RootLoopExit.state, invoke, hdr]
          · intro _ d1 d2 h2; simp at h2
        · refine loop_concl RootLoopExit.state _ _ s [Domain.relaxed, Domain.control] _
            (hstep.trans heq) ?_ (by simp) ?_
          · have hfh : (flipFlags f).histage = true := by
              simp [flipFlags]
              simpa using hh
            simp [RootLoopExit.state, hc, hfh, invoke, hdr]
          · intro _ d1 d2 h2
            cases d1 <;> cases d2 <;> simp_all [Domain.other]

/-- Environment whose handler reports NotSupported on the first attempt and
succeeds on the retry, with a `histage`-with-adaptive mode table. -/
def envAdaptive : Env :=
  { envBase with
    handler := fun k => if k = 0 then -ENOSYS else 7,
    sysmodes := fun _ => { histage := true, adaptive := true } }

/-- Witness for `adaptive_retry_bounded`: the flip clears the adaptive bit
of the `probing` mode, and the head loop terminates with fuel 2 on a
concrete adaptive call. -/
theorem adaptive_retry_bounded_witness :
    (flipFlags xnExecProbing).adaptive = false ∧
    (head_loop envAdaptive .control 2 { histage := true, adaptive := true } false 0
      { dom := .control, thread := some {} }).isSome = true :=
  ⟨adaptive_retry_bounded.1 xnExecProbing rfl,
   (adaptive_retry_bounded.2.1 envAdaptive .control { histage := true, adaptive := true }
     { dom := .control, thread := some {} } rfl).1⟩

/-- Counterexample to claim C1 as stated: a `downup`-mode call
(lostage with SwitchBack) from the control domain migrates (the relax is
traced), no interposition fires, yet because the best-effort re-entry to
the control domain is denied the thread ends in the relaxed domain, not its
original control domain. -/
theorem switchback_counterexample :
    handle_head_syscall { envBase with hardenRet := -EPERM, sysmodes := fun _ => xnExecDownup }
        .control 1 { dom := .control, thread := some {} } =
      .stop { dom := .relaxed, thread := some {}, status := some 0,
              events := [.relax true .migrateSyscall, .harden false],
              calls := [.relaxed] } ∧
    Domain.relaxed ≠ Domain.control := ⟨rfl, by decide⟩

/-- Claim C1 (amended): a call that caused a domain migration (`switched`
set at loop exit) with SwitchBack in its mode is back in its original
domain when the call completes, provided that in the control-domain
dispatcher's path the best-effort re-entry to the control domain succeeds
(the relaxed-domain dispatcher's switch-back is a relax, which cannot
fail); if interposition fired after the handler, the thread ends in the
relaxed domain regardless of SwitchBack.  The first two conjuncts locate
the original domain: a head-loop `done` exit with `switched` set leaves the
thread relaxed (original: control), a root-loop one leaves it in control
(original: relaxed). -/
theorem switchback_final_domain :
    (∀ (env : Env) (ipd : Domain) (fuel : Nat) (f : SysFlags) (k : Nat) (s : SysState)
      (ret : Int) (sw1 : Bool) (f1 : SysFlags) (s1 : SysState) (k1 : Nat),
      head_loop env ipd fuel f false k s = some (.done ret sw1 f1 s1 k1) →
      sw1 = true → s1.dom = .relaxed) ∧
    (∀ (env : Env) (fuel : Nat) (f : SysFlags) (k : Nat) (s : SysState)
      (ret : Int) (sw1 : Bool) (f1 : SysFlags) (s1 : SysState) (k1 : Nat),
      root_loop env fuel f k s = some (.done ret sw1 f1 s1 k1) →
      sw1 = true → s1.dom = .control) ∧
    (∀ (env : Env) (f : SysFlags) (ret : Int) (s : SysState),
      s.dom = .relaxed → f.switchback = true → env.hardenRet = 0 →
      head_post env f ret true s =
        .stop { s with
                dom := .control,
                status := some ret,
                events := s.events ++ [.harden true] }) ∧
    (∀ (env : Env) (f : SysFlags) (ret : Int) (s : SysState) (t : Thread),
      s.dom = .control → s.thread = some t → f.switchback = true →
      ∀ s1, root_post env f ret true s = .stop s1 → s1.dom = .relaxed) ∧
    (∀ (env : Env) (f : SysFlags) (ret : Int) (sw : Bool) (s : SysState) (t : Thread),
      s.dom = .control → s.thread = some t →
      (env.signalPending = true ∨ t.kicked = true) →
      ∀ s1, head_post env f ret sw s = .stop s1 → s1.dom = .relaxed) := by
  refine ⟨?_, ?_, ?_, ?_, ?_⟩
  · intro env ipd fuel f k s ret sw1 f1 s1 k1 h hsw1
    exact head_loop_switched env ipd fuel f false k s ret sw1 f1 s1 k1
      (fun hh => absurd hh (by simp)) h hsw1
  · intro env fuel f k s ret sw1 f1 s1 k1 h hsw1
    exact root_loop_switched env fuel f k s ret sw1 f1 s1 k1 h hsw1
  · intro env f ret s hdom hsb hw
    rcases s with ⟨d, th, st, ev, ca⟩
    dsimp only at hdom
    subst hdom
    unfold head_post
    simp [hsb, xnthread_harden, hw]
  · intro env f ret s t hdom hth hsb s1 hstop
    rcases s with ⟨d, th, st, ev, ca⟩
    dsimp only at hdom hth
    subst hdom
    subst hth
    unfold root_post at hstop
    by_cases hsig : env.signalPending = true
    · simp only [hsig] at hstop
      cases hp : prepare_for_signal env f t
          { dom := .control, thread := some t, status := some ret,
            events := ev, calls := ca } with
      | cancelled s2 => simp [hp] at hstop
      | returned s2 =>
        simp [hp] at hstop
        rw [← hstop]
        exact prepare_returned_relaxed env f t _ s2 hp
    · simp [hsig, hsb, apply_ite SysFlags.switchback, xnthread_relax] at hstop
      rw [← hstop]
  · intro env f ret sw s t hdom hth htrig s1 hstop
    rcases s with ⟨d, th, st, ev, ca⟩
    dsimp only at hdom hth
    subst hdom
    subst hth
    unfold head_post at hstop
    have htrig1 : (env.signalPending || t.kicked) = true := by
      rcases htrig with h | h <;> simp [h]
    simp only [htrig1] at hstop
    cases hp : prepare_for_signal env f t
        { dom := .control, thread := some t, status := some ret,
          events := ev, calls := ca } with
    | cancelled s2 => simp [hp] at hstop
    | returned s2 =>
      simp [hp] at hstop
      rw [← hstop]
      exact prepare_returned_relaxed env f t _ s2 hp

/-- Witness for `switchback_final_domain`: its successful switch-back
conjunct at a concrete relaxed, switched call. -/
theorem switchback_final_domain_witness :
    head_post envBase xnExecDownup 3 true { dom := .relaxed, thread := some {} } =
      .stop { dom := .control, thread := some {}, status := some 3,
              events := [.harden true], calls := [] } :=
  switchback_final_domain.2.2.1 envBase xnExecDownup 3
    { dom := .relaxed, thread := some {} } rfl rfl rfl

/-- Counterexample to claim C9 as stated: at the equivalent post-handler
input state (switched set, thread in the control domain, Weak, zero nested
resources, no pending signal, no pending cancellation) the control-domain
dispatcher's path absorbs the forced relax and leaves the thread in the
control domain, while the relaxed-domain dispatcher's path forces
SwitchBack and relaxes it: the two paths agree on the final status but NOT
on the final domain. -/
theorem weak_paths_counterexample :
    head_post envBase {} 7 true { dom := .control, thread := some { weak := true } } =
      .stop { dom := .control, thread := some { weak := true }, status := some 7 } ∧
    root_post envBase {} 7 true { dom := .control, thread := some { weak := true } } =
      .stop { dom := .relaxed, thread := some { weak := true }, status := some 7,
              events := [.relax false .null] } ∧
    Domain.control ≠ Domain.relaxed := ⟨rfl, rfl, by decide⟩

/-- Claim C9 (amended): for equivalent input states — a Weak thread with
zero nested resources, no pending signal, no pending cancellation after the
handler returns, the thread in the control domain with `switched` set — the
two dispatchers' post-call paths write the same final status, but they do
NOT reach the same final domain: the control-domain path absorbs the forced
relax (clearing `switched`, no migration: final domain control), while the
relaxed-domain path forces SwitchBack and relaxes unconditionally (final
domain relaxed). -/
theorem weak_paths_divergence (env : Env) (f : SysFlags) (ret : Int)
    (s : SysState) (t : Thread) (hth : s.thread = some t) (hw : t.weak = true)
    (hr : t.res_count = 0) (hsig : env.signalPending = false)
    (hk : t.kicked = false) (hc : t.cancelled = false) (hdom : s.dom = .control) :
    head_post env f ret true s = .stop { s with status := some ret } ∧
    root_post env f ret true s =
      .stop { s with
              dom := .relaxed,
              status := some ret,
              events := s.events ++ [.relax false .null] } := by
  rcases s with ⟨d, th, st, ev, ca⟩
  dsimp only at hth hdom
  subst hth
  subst hdom
  constructor
  · unfold head_post
    simp [hsig, hk, hw, hr]
  · unfold root_post
    simp [hsig, hw, hr, xnthread_relax, apply_ite SysFlags.switchback]

/-- Witness for `weak_paths_divergence` at the concrete divergent state. -/
theorem weak_paths_divergence_witness :
    head_post envBase {} 7 true { dom := .control, thread := some { weak := true } } =
      .stop { dom := .control, thread := some { weak := true }, status := some 7 } ∧
    root_post envBase {} 7 true { dom := .control, thread := some { weak := true } } =
      .stop { dom := .relaxed, thread := some { weak := true }, status := some 7,
              events := [.relax false .null] } :=
  weak_paths_divergence envBase {} 7
    { dom := .control, thread := some { weak := true } } { weak := true }
    rfl rfl rfl rfl rfl rfl rfl

end Cobalt
